import Mathlib

/-!
# Verification of `sample/basic_model_sim.cpp`

A shallow embedding of the interactive viewer sample: the GLFW callbacks
(`keyboard`, `mouse_button`, `mouse_move`, `scroll`), the default control
callback `mycontroller`, and the main loop with its 1/60 s stepping loop.

Conventions of the embedding

* `double`/`mjtNum` values in the program state are exact rationals (`ℚ`);
  rounding, infinities and NaN are outside that model.  In particular `x / 0`
  is `0` here, whereas the C program would produce an infinity or NaN when the
  window height is `0`; statements that depend on the value of a quotient
  assume a nonzero height, and no statement relies on a quotient or product
  being exact.
* The number of steps of a scheduler pass depends on the rounding of the
  clock.  For that the stepping loop is given a second time, on the clock
  alone, in IEEE double arithmetic (`stepLoopDouble`).
* The globals of the translation unit are the fields of `Globals`; a callback
  is a function from `Globals` to `Globals`.
* The physics engine and the abstract visualiser are not part of the sample.
  Their entry points are the fields of `Engine`, and every call the program
  makes to them is appended to the ghost trace `Globals.calls`.
* The window system is a snapshot `GLFWwindow` of what its query functions
  return at the time a callback runs.
-/

namespace BasicModelSim

/-! ## Data model -/

/-- Mouse actions of `mjtMouse` that the sample forwards to the camera primitive. -/
inductive mjtMouse where
  | mjMOUSE_ROTATE_V
  | mjMOUSE_ROTATE_H
  | mjMOUSE_MOVE_V
  | mjMOUSE_MOVE_H
  | mjMOUSE_ZOOM
  deriving DecidableEq, Repr

/-- GLFW constant: key or button state "pressed". -/
def GLFW_PRESS : Int := 1

/-- GLFW constant: key code of the backspace key. -/
def GLFW_KEY_BACKSPACE : Int := 259

/-- GLFW constant: key code of the left shift key. -/
def GLFW_KEY_LEFT_SHIFT : Int := 340

/-- GLFW constant: key code of the right shift key. -/
def GLFW_KEY_RIGHT_SHIFT : Int := 344

/-- GLFW constant: left mouse button. -/
def GLFW_MOUSE_BUTTON_LEFT : Int := 0

/-- GLFW constant: right mouse button. -/
def GLFW_MOUSE_BUTTON_RIGHT : Int := 1

/-- GLFW constant: middle mouse button. -/
def GLFW_MOUSE_BUTTON_MIDDLE : Int := 2

/-- What the window-system queries used by the callbacks return when a
callback runs: `glfwGetMouseButton`, `glfwGetCursorPos`, `glfwGetWindowSize`
(width, height) and `glfwGetKey`. -/
structure GLFWwindow where
  glfwGetMouseButton : Int → Int
  glfwGetCursorPos : ℚ × ℚ
  glfwGetWindowSize : Int × Int
  glfwGetKey : Int → Int

/-- The fields of `mjModel` that the sample reads by name (`nu`, `nv`); the
rest of the model is `other`. -/
structure mjModel (X : Type) where
  nu : Nat
  nv : Nat
  other : X

/-- The fields of `mjData` that the sample reads or writes by name (`time`,
`qvel`, `ctrl`); `state` is the remaining primary simulation state and
`derived` holds the quantities the engine computes from it. -/
structure mjData (Q D : Type) where
  time : ℚ
  qvel : List ℚ
  ctrl : List ℚ
  state : Q
  derived : D

/-- Calls from the sample into the engine, the visualiser and the window
system that are recorded in the ghost trace. -/
inductive Call where
  | mj_step
  | mj_resetData
  | mj_forward
  | mjv_moveCamera (action : mjtMouse) (reldx reldy : ℚ)
  | glfwGetFramebufferSize
  | mjv_updateScene
  | mjr_render
  | glfwSwapBuffers
  | glfwPollEvents
  deriving DecidableEq, Repr

/-- Entry points of the engine and visualiser called by the sample.  `mj_step`
and `mj_forward` receive the installed control callback, which the engine
reads from the global `mjcb_control`. -/
structure Engine (X Q D Cam Scn : Type) where
  mj_step : Option (mjModel X → mjData Q D → mjData Q D) → mjModel X → mjData Q D → mjData Q D
  mj_resetData : mjModel X → mjData Q D → mjData Q D
  mj_forward : Option (mjModel X → mjData Q D → mjData Q D) → mjModel X → mjData Q D → mjData Q D
  mjv_moveCamera : mjModel X → mjtMouse → ℚ → ℚ → Scn → Cam → Cam
  mjv_updateScene : mjModel X → mjData Q D → Cam → Scn → Scn

/-- Global variables of the sample (`m`, `d`, `cam`, `scn`, the button latches,
`lastx`, `lasty`), the engine global `mjcb_control`, and the ghost trace of
collaborator calls in chronological order. -/
structure Globals (X Q D Cam Scn : Type) where
  m : mjModel X
  d : mjData Q D
  cam : Cam
  scn : Scn
  button_left : Bool
  button_middle : Bool
  button_right : Bool
  lastx : ℚ
  lasty : ℚ
  mjcb_control : Option (mjModel X → mjData Q D → mjData Q D)
  calls : List Call

variable {X Q D Cam Scn : Type}

/-! ## Callbacks -/

/-- Keyboard callback: backspace pressed resets the simulation. -/
def keyboard (E : Engine X Q D Cam Scn) (_window : GLFWwindow)
    (key _scancode act _mods : Int) (g : Globals X Q D Cam Scn) : Globals X Q D Cam Scn :=
  if act = GLFW_PRESS ∧ key = GLFW_KEY_BACKSPACE then
    let g1 := { g with d := E.mj_resetData g.m g.d, calls := g.calls ++ [Call.mj_resetData] }
    { g1 with
      d := E.mj_forward g1.mjcb_control g1.m g1.d
      calls := g1.calls ++ [Call.mj_forward] }
  else
    g

/-- Mouse button callback: resample the three latches and the cursor position. -/
def mouse_button (window : GLFWwindow) (_button _act _mods : Int)
    (g : Globals X Q D Cam Scn) : Globals X Q D Cam Scn :=
  { g with
    button_left := decide (window.glfwGetMouseButton GLFW_MOUSE_BUTTON_LEFT = GLFW_PRESS)
    button_middle := decide (window.glfwGetMouseButton GLFW_MOUSE_BUTTON_MIDDLE = GLFW_PRESS)
    button_right := decide (window.glfwGetMouseButton GLFW_MOUSE_BUTTON_RIGHT = GLFW_PRESS)
    lastx := window.glfwGetCursorPos.1
    lasty := window.glfwGetCursorPos.2 }

/-- The shift modifier as sampled by `mouse_move`. -/
def mod_shift (window : GLFWwindow) : Bool :=
  decide (window.glfwGetKey GLFW_KEY_LEFT_SHIFT = GLFW_PRESS) ||
    decide (window.glfwGetKey GLFW_KEY_RIGHT_SHIFT = GLFW_PRESS)

/-- Mouse move callback. -/
def mouse_move (E : Engine X Q D Cam Scn) (window : GLFWwindow) (xpos ypos : ℚ)
    (g : Globals X Q D Cam Scn) : Globals X Q D Cam Scn :=
  if !g.button_left && !g.button_middle && !g.button_right then
    g
  else
    let dx := xpos - g.lastx
    let dy := ypos - g.lasty
    let height : ℚ := window.glfwGetWindowSize.2
    let action :=
      if g.button_right then
        (if mod_shift window then mjtMouse.mjMOUSE_MOVE_H else mjtMouse.mjMOUSE_MOVE_V)
      else if g.button_left then
        (if mod_shift window then mjtMouse.mjMOUSE_ROTATE_H else mjtMouse.mjMOUSE_ROTATE_V)
      else
        mjtMouse.mjMOUSE_ZOOM
    { g with
      lastx := xpos
      lasty := ypos
      cam := E.mjv_moveCamera g.m action (dx / height) (dy / height) g.scn g.cam
      calls := g.calls ++ [Call.mjv_moveCamera action (dx / height) (dy / height)] }

/-- Scroll callback. -/
def scroll (E : Engine X Q D Cam Scn) (_window : GLFWwindow) (_xoffset yoffset : ℚ)
    (g : Globals X Q D Cam Scn) : Globals X Q D Cam Scn :=
  { g with
    cam := E.mjv_moveCamera g.m mjtMouse.mjMOUSE_ZOOM 0 (-0.05 * yoffset) g.scn g.cam
    calls := g.calls ++ [Call.mjv_moveCamera mjtMouse.mjMOUSE_ZOOM 0 (-0.05 * yoffset)] }

/-! ## Control callback -/

/-- Modelled from the spec: the engine helper `mju_scl(res, vec, scl, n)` is
not among the sample sources.  The spec gives the default hook as
"actuation = -k * velocity", so the helper writes `res[i] = vec[i] * scl` for
each `i < n` and leaves the other entries of `res` alone. -/
def mju_scl (res vec : List ℚ) (scl : ℚ) (n : Nat) : List ℚ :=
  (List.range n).foldl (fun r i => r.set i (vec.getD i 0 * scl)) res

/-- Default control callback: damping on each degree of freedom. -/
def mycontroller (m : mjModel X) (d : mjData Q D) : mjData Q D :=
  if m.nu = m.nv then
    { d with ctrl := mju_scl d.ctrl d.qvel (-0.1) m.nv }
  else
    d

/-! ## Main loop -/

/-- One execution of the body of the stepping loop: `mj_step(m, d)`. -/
def stepOnce (E : Engine X Q D Cam Scn) (g : Globals X Q D Cam Scn) : Globals X Q D Cam Scn :=
  { g with d := E.mj_step g.mjcb_control g.m g.d, calls := g.calls ++ [Call.mj_step] }

/-- The stepping loop `while (d->time - simstart < 1.0/60.0) mj_step(m, d);`
with a bound on the number of iterations; `none` when the bound is hit. -/
def stepLoop (E : Engine X Q D Cam Scn) (simstart : ℚ) :
    Nat → Globals X Q D Cam Scn → Option (Globals X Q D Cam Scn)
  | 0, g => if g.d.time - simstart < 1 / 60 then none else some g
  | fuel + 1, g =>
    if g.d.time - simstart < 1 / 60 then stepLoop E simstart fuel (stepOnce E g) else some g

/-- The frame scheduler: `simstart = d->time` followed by the stepping loop. -/
def frameScheduler (E : Engine X Q D Cam Scn) (fuel : Nat) (g : Globals X Q D Cam Scn) :
    Option (Globals X Q D Cam Scn) :=
  stepLoop E g.d.time fuel g

/-- Window-system events delivered to the installed callbacks. -/
inductive Event where
  | key (key scancode act mods : Int)
  | mouseButton (button act mods : Int)
  | cursorPos (xpos ypos : ℚ)
  | scroll (xoffset yoffset : ℚ)

/-- A pending event together with what the window queries return while its
callback runs. -/
structure Pending where
  window : GLFWwindow
  event : Event

/-- Scroll events and cursor-position events: the two kinds of event through
which the sample can zoom. -/
def Event.isScrollOrMove : Event → Bool
  | Event.cursorPos _ _ => true
  | Event.scroll _ _ => true
  | _ => false

/-- Run the callback installed for an event. -/
def dispatch (E : Engine X Q D Cam Scn) (p : Pending) (g : Globals X Q D Cam Scn) :
    Globals X Q D Cam Scn :=
  match p.event with
  | Event.key k sc a md => keyboard E p.window k sc a md g
  | Event.mouseButton b a md => mouse_button p.window b a md g
  | Event.cursorPos x y => mouse_move E p.window x y g
  | Event.scroll xo yo => scroll E p.window xo yo g

/-- Run the callbacks for a sequence of events, in order. -/
def dispatchAll (E : Engine X Q D Cam Scn) (ps : List Pending) (g : Globals X Q D Cam Scn) :
    Globals X Q D Cam Scn :=
  ps.foldl (fun acc p => dispatch E p acc) g

/-- The call `glfwPollEvents()`: the pending events are handed to the callbacks. -/
def glfwPollEvents (E : Engine X Q D Cam Scn) (pending : List Pending)
    (g : Globals X Q D Cam Scn) : Globals X Q D Cam Scn :=
  dispatchAll E pending { g with calls := g.calls ++ [Call.glfwPollEvents] }

/-- The globals as `main` leaves them before entering the main loop: latches
false, cursor at the origin, `mycontroller` installed. -/
def mainInit (m : mjModel X) (d : mjData Q D) (cam : Cam) (scn : Scn) : Globals X Q D Cam Scn :=
  { m := m, d := d, cam := cam, scn := scn
    button_left := false, button_middle := false, button_right := false
    lastx := 0, lasty := 0
    mjcb_control := some mycontroller
    calls := [] }

/-! ## The stepping loop in double precision

`mjtNum` is `double`.  How many steps a pass of the stepping loop takes depends
on the rounding of `d->time`, so the loop is given a second time with IEEE
binary64 arithmetic.  Every finite double is an integer multiple of `2^-1074`;
a double is represented by that integer.  Sums and differences of doubles are
again multiples of `2^-1074`, so addition and subtraction are the exact integer
operation followed by rounding to 53 significant bits, nearest with ties to
even.  Overflow to infinity and NaN are outside the model. -/

/-- Modelled from the spec: the engine call `mj_resetData` is not among the
sample sources.  Sections 4.3 and 6: reset zeroes the simulated time and
"restores state to its initial snapshot"; `initial` is the snapshot the loader
produced for the model. -/
def mj_resetData (initial : mjModel X → mjData Q D) (m : mjModel X) (_d : mjData Q D) :
    mjData Q D :=
  { initial m with time := 0 }

/-- Modelled from the spec: the engine call `mj_forward` is not among the
sample sources.  Section 4.3: "recompute one consistency pass (equivalent to a
single zero-duration step) so that derived quantities are valid".  A step
"invokes the installed ControlHook" (sections 4.3 and 6), and the hook has
"read access to simulation state and write access to an actuation vector"
(section 4.4).  So the pass keeps the clock, lets the installed hook, if any,
write `ctrl`, keeps the rest of the primary state, and recomputes the derived
quantities by `derive`. -/
def mj_forward (derive : mjModel X → mjData Q D → D)
    (hook : Option (mjModel X → mjData Q D → mjData Q D)) (m : mjModel X) (d : mjData Q D) :
    mjData Q D :=
  let d1 : mjData Q D :=
    match hook with
    | some f => { d with ctrl := (f m d).ctrl }
    | none => d
  { d1 with derived := derive m d1 }

/-- Modelled from the spec: the camera state `mjvCamera` is declared outside
the sample sources.  Section 3 (CameraRig): "azimuth, elevation,
distance-from-target, target point". -/
structure CameraRig where
  azimuth : ℚ
  elevation : ℚ
  distance : ℚ
  target : ℚ × ℚ × ℚ

/-- Modelled from the spec: the camera primitive `mjv_moveCamera` is not among
the sample sources.  Sections 3 and 4.2: the zoom action operates on
distance-from-target using the vertical magnitude, and "a zoom operation that
would drive it to zero or negative must clamp at a small positive minimum".
The unclamped zoom law `zoomLaw`, the minimum `minDistance` and the behaviour
`other` of the pan and rotate actions are not fixed by the spec and are
parameters. -/
def mjv_moveCamera (zoomLaw : CameraRig → ℚ → ℚ) (minDistance : ℚ)
    (other : mjtMouse → ℚ → ℚ → CameraRig → CameraRig)
    (_m : mjModel X) (action : mjtMouse) (reldx reldy : ℚ) (_scn : Scn) (cam : CameraRig) :
    CameraRig :=
  match action with
  | mjtMouse.mjMOUSE_ZOOM => { cam with distance := max minDistance (zoomLaw cam reldy) }
  | a => other a reldx reldy cam

/-- An engine whose reset and forward calls are the ones modelled above. -/
def withReset (E : Engine X Q D Cam Scn) (initial : mjModel X → mjData Q D)
    (derive : mjModel X → mjData Q D → D) : Engine X Q D Cam Scn :=
  { E with mj_resetData := mj_resetData initial, mj_forward := mj_forward derive }

/-- An engine whose camera primitive is the one modelled above. -/
def withCamera (E : Engine X Q D CameraRig Scn) (zoomLaw : CameraRig → ℚ → ℚ) (minDistance : ℚ)
    (other : mjtMouse → ℚ → ℚ → CameraRig → CameraRig) : Engine X Q D CameraRig Scn :=
  { E with mjv_moveCamera := mjv_moveCamera zoomLaw minDistance other }

/-! ## Concrete instances

Small closed instances at which the results below are evaluated. -/

/-- A two-degree-of-freedom model with two actuators. -/
def demoModel : mjModel Unit :=
  { nu := 2, nv := 2, other := () }

/-- Simulation data at time zero with velocities `3, -4`. -/
def demoData : mjData Unit Unit :=
  { time := 0, qvel := [3, -4], ctrl := [0, 0], state := (), derived := () }

/-- Simulation data some way into a run. -/
def demoDataLater : mjData Unit Unit :=
  { time := 7 / 2, qvel := [1, 1], ctrl := [5, 5], state := (), derived := () }

/-- A camera at distance 2 from the origin. -/
def demoCam : CameraRig :=
  { azimuth := 90, elevation := -45, distance := 2, target := (0, 0, 0) }

/-- An engine whose step runs the installed control callback and advances the
clock by `h`, with reset, forward and camera primitive as modelled above
(linear zoom law, minimum distance 1/100). -/
def demoEngine (h : ℚ) : Engine Unit Unit Unit CameraRig Unit :=
  { mj_step := fun hook m d =>
      let d1 := match hook with
        | some f => f m d
        | none => d
      { d1 with time := d1.time + h }
    mj_resetData := mj_resetData (fun _ => demoData)
    mj_forward := mj_forward (fun _ _ => ())
    mjv_moveCamera := mjv_moveCamera (fun c r => c.distance + 10 * r) (1 / 100) (fun _ _ _ c => c)
    mjv_updateScene := fun _ _ _ s => s }

/-- A 1200 by 900 window, no key or button pressed, cursor at the origin. -/
def demoWindow : GLFWwindow :=
  { glfwGetMouseButton := fun _ => 0
    glfwGetCursorPos := (0, 0)
    glfwGetWindowSize := (1200, 900)
    glfwGetKey := fun _ => 0 }

/-- The globals at entry to the main loop for the demo model. -/
def demoGlobals : Globals Unit Unit Unit CameraRig Unit :=
  mainInit demoModel demoData demoCam ()

/-- Only the middle button latched, everything else as at entry to the main loop. -/
def demoMiddle : Globals Unit Unit Unit CameraRig Unit :=
  { demoGlobals with button_middle := true }

/-- Left and right buttons latched together. -/
def demoLeftRight : Globals Unit Unit Unit CameraRig Unit :=
  { demoGlobals with button_left := true, button_right := true }

/-- No button latched, cursor last stored at (40, 50). -/
def demoHover : Globals Unit Unit Unit CameraRig Unit :=
  { demoGlobals with lastx := 40, lasty := 50 }

/-- The demo window while the middle button is held and the cursor is at (5, 7). -/
def demoPress : GLFWwindow :=
  { demoWindow with
    glfwGetMouseButton := fun b => if b = GLFW_MOUSE_BUTTON_MIDDLE then GLFW_PRESS else 0
    glfwGetCursorPos := (5, 7) }

/-- Mid-run: middle button latched, cursor last seen at x = 40, the data some
way into a run. -/
def demoMidRun : Globals Unit Unit Unit CameraRig Unit :=
  { demoMiddle with d := demoDataLater, lastx := 40 }

/-- With no latch set, `mouse_move` returns the globals as they were. -/
lemma mouse_move_idle (E : Engine X Q D Cam Scn) (window : GLFWwindow) (xpos ypos : ℚ)
    (g : Globals X Q D Cam Scn) (hl : g.button_left = false) (hm : g.button_middle = false)
    (hr : g.button_right = false) : mouse_move E window xpos ypos g = g := by
  simp [mouse_move, hl, hm, hr]

/-- With a latch set, the guard at the top of `mouse_move` is false. -/
lemma mouse_move_active (g : Globals X Q D Cam Scn)
    (hb : g.button_left = true ∨ g.button_middle = true ∨ g.button_right = true) :
    (!g.button_left && !g.button_middle && !g.button_right) = false := by
  rcases hb with h | h | h <;> simp [h]

/-- C3: a move event with at least one button latched forwards exactly one
call to the camera primitive, with the pointer deltas divided by the window
height, and its action is a pan when the right button is latched (horizontal
with shift, vertical without), otherwise a rotate when the left button is
latched (horizontal with shift, vertical without), otherwise a zoom.  With
right and left both latched the action is a pan, never a rotate or a zoom,
whatever the middle latch and the shift modifier are. -/
theorem mouse_move_priority (E : Engine X Q D Cam Scn) (window : GLFWwindow) (xpos ypos : ℚ)
    (g : Globals X Q D Cam Scn)
    (hb : g.button_left = true ∨ g.button_middle = true ∨ g.button_right = true) :
    ∃ action : mjtMouse,
      (mouse_move E window xpos ypos g).calls =
        g.calls ++ [Call.mjv_moveCamera action
          ((xpos - g.lastx) / (window.glfwGetWindowSize.2 : ℚ))
          ((ypos - g.lasty) / (window.glfwGetWindowSize.2 : ℚ))] ∧
      (mouse_move E window xpos ypos g).cam =
        E.mjv_moveCamera g.m action
          ((xpos - g.lastx) / (window.glfwGetWindowSize.2 : ℚ))
          ((ypos - g.lasty) / (window.glfwGetWindowSize.2 : ℚ)) g.scn g.cam ∧
      (g.button_right = true → mod_shift window = true →
        action = mjtMouse.mjMOUSE_MOVE_H) ∧
      (g.button_right = true → mod_shift window = false →
        action = mjtMouse.mjMOUSE_MOVE_V) ∧
      (g.button_right = false → g.button_left = true → mod_shift window = true →
        action = mjtMouse.mjMOUSE_ROTATE_H) ∧
      (g.button_right = false → g.button_left = true → mod_shift window = false →
        action = mjtMouse.mjMOUSE_ROTATE_V) ∧
      (g.button_right = false → g.button_left = false →
        action = mjtMouse.mjMOUSE_ZOOM) ∧
      (g.button_right = true → g.button_left = true →
        (action = mjtMouse.mjMOUSE_MOVE_H ∨ action = mjtMouse.mjMOUSE_MOVE_V) ∧
        action ≠ mjtMouse.mjMOUSE_ROTATE_H ∧ action ≠ mjtMouse.mjMOUSE_ROTATE_V ∧
        action ≠ mjtMouse.mjMOUSE_ZOOM) := by
  have hact := mouse_move_active g hb
  refine ⟨if g.button_right then
      (if mod_shift window then mjtMouse.mjMOUSE_MOVE_H else mjtMouse.mjMOUSE_MOVE_V)
    else if g.button_left then
      (if mod_shift window then mjtMouse.mjMOUSE_ROTATE_H else mjtMouse.mjMOUSE_ROTATE_V)
    else mjtMouse.mjMOUSE_ZOOM, ?_, ?_, ?_, ?_, ?_, ?_, ?_, ?_⟩
  · simp only [mouse_move, hact]
    rfl
  · simp only [mouse_move, hact]
    rfl
  · intro hr hs
    simp [hr, hs]
  · intro hr hs
    simp [hr, hs]
  · intro hr hl hs
    simp [hr, hl, hs]
  · intro hr hl hs
    simp [hr, hl, hs]
  · intro hr hl
    simp [hr, hl]
  · intro hr _
    cases hs : mod_shift window <;> simp [hr]

/-- C3 at a concrete input: left and right latched in a 1200 by 900 window
without shift, pointer moved to (9, 18); the forwarded call is a vertical pan
with deltas 1/100 and 1/50. -/
theorem mouse_move_priority_witness :
    (demoLeftRight.button_left = true ∨ demoLeftRight.button_middle = true ∨
        demoLeftRight.button_right = true) ∧
      (mouse_move (demoEngine (1 / 500)) demoWindow 9 18 demoLeftRight).calls =
        [Call.mjv_moveCamera mjtMouse.mjMOUSE_MOVE_V (1 / 100) (1 / 50)] := by
  refine ⟨Or.inl rfl, ?_⟩
  obtain ⟨a, hc, -, -, hv, -, -, -, -⟩ :=
    mouse_move_priority (demoEngine (1 / 500)) demoWindow 9 18 demoLeftRight (Or.inl rfl)
  rw [hc, hv rfl (by decide)]
  simp [demoLeftRight, demoGlobals, mainInit, demoWindow]
  norm_num

/-- C4: any finite sequence of move events handled while no button is latched
leaves the camera unchanged and adds no call of the camera primitive (indeed
no call at all) to the trace. -/
theorem hover_leaves_camera (E : Engine X Q D Cam Scn) (moves : List (GLFWwindow × ℚ × ℚ))
    (g : Globals X Q D Cam Scn) (hl : g.button_left = false) (hm : g.button_middle = false)
    (hr : g.button_right = false) :
    (moves.foldl (fun acc e => mouse_move E e.1 e.2.1 e.2.2 acc) g).cam = g.cam ∧
      (moves.foldl (fun acc e => mouse_move E e.1 e.2.1 e.2.2 acc) g).calls = g.calls := by
  have key : moves.foldl (fun acc e => mouse_move E e.1 e.2.1 e.2.2 acc) g = g := by
    induction moves with
    | nil => rfl
    | cons e rest ih =>
      rw [List.foldl_cons, mouse_move_idle E e.1 e.2.1 e.2.2 g hl hm hr]
      exact ih
  rw [key]
  exact ⟨rfl, rfl⟩

/-- C4 at a concrete input: three hover moves over the demo window from the
globals at entry to the main loop. -/
theorem hover_leaves_camera_witness :
    (demoGlobals.button_left = false ∧ demoGlobals.button_middle = false ∧
        demoGlobals.button_right = false) ∧
      ([(demoWindow, (10 : ℚ), (20 : ℚ)), (demoWindow, 300, -40), (demoWindow, 0, 1)].foldl
          (fun acc e => mouse_move (demoEngine (1 / 500)) e.1 e.2.1 e.2.2 acc) demoGlobals).cam
        = demoCam ∧
      ([(demoWindow, (10 : ℚ), (20 : ℚ)), (demoWindow, 300, -40), (demoWindow, 0, 1)].foldl
          (fun acc e => mouse_move (demoEngine (1 / 500)) e.1 e.2.1 e.2.2 acc) demoGlobals).calls
        = [] :=
  ⟨⟨rfl, rfl, rfl⟩,
    hover_leaves_camera (demoEngine (1 / 500))
      [(demoWindow, (10 : ℚ), (20 : ℚ)), (demoWindow, 300, -40), (demoWindow, 0, 1)]
      demoGlobals rfl rfl rfl⟩

/-- C8 as stated fails: at entry to the main loop (`lastx = lasty = 0`, no
button latched) a move event to (5, 7) leaves `lastx` and `lasty` at 0, not at
5 and 7. -/
theorem hover_keeps_stale_cursor :
    demoGlobals.button_left = false ∧ demoGlobals.button_middle = false ∧
      demoGlobals.button_right = false ∧
      (mouse_move (demoEngine (1 / 500)) demoWindow 5 7 demoGlobals).lastx = 0 ∧
      (mouse_move (demoEngine (1 / 500)) demoWindow 5 7 demoGlobals).lasty = 0 ∧
      (mouse_move (demoEngine (1 / 500)) demoWindow 5 7 demoGlobals).lastx ≠ 5 ∧
      (mouse_move (demoEngine (1 / 500)) demoWindow 5 7 demoGlobals).lasty ≠ 7 := by
  have h : mouse_move (demoEngine (1 / 500)) demoWindow 5 7 demoGlobals = demoGlobals :=
    mouse_move_idle _ _ _ _ _ rfl rfl rfl
  rw [h]
  refine ⟨rfl, rfl, rfl, rfl, rfl, ?_, ?_⟩ <;>
    simp [demoGlobals, mainInit]

/-- C8 amended: a move event handled while no button is latched returns at
once and changes nothing: `lastx` and `lasty` keep their previous values, the
camera is untouched and no call is made.  The stored cursor position is
refreshed by `mouse_button` instead: after any button event that follows,
`lastx` and `lasty` are the cursor position the window reports at that event,
and the three latches are what the window reports for the three buttons. -/
theorem hover_is_noop (E : Engine X Q D Cam Scn) (window : GLFWwindow) (xpos ypos : ℚ)
    (g : Globals X Q D Cam Scn) (hl : g.button_left = false) (hm : g.button_middle = false)
    (hr : g.button_right = false) :
    mouse_move E window xpos ypos g = g ∧
      (mouse_move E window xpos ypos g).lastx = g.lastx ∧
      (mouse_move E window xpos ypos g).lasty = g.lasty ∧
      (mouse_move E window xpos ypos g).cam = g.cam ∧
      (mouse_move E window xpos ypos g).calls = g.calls ∧
      ∀ (later : GLFWwindow) (button act mods : Int),
        (mouse_button later button act mods (mouse_move E window xpos ypos g)).lastx =
            later.glfwGetCursorPos.1 ∧
          (mouse_button later button act mods (mouse_move E window xpos ypos g)).lasty =
            later.glfwGetCursorPos.2 ∧
          ((mouse_button later button act mods (mouse_move E window xpos ypos g)).button_left
              = true ↔ later.glfwGetMouseButton GLFW_MOUSE_BUTTON_LEFT = GLFW_PRESS) ∧
          ((mouse_button later button act mods (mouse_move E window xpos ypos g)).button_middle
              = true ↔ later.glfwGetMouseButton GLFW_MOUSE_BUTTON_MIDDLE = GLFW_PRESS) ∧
          ((mouse_button later button act mods (mouse_move E window xpos ypos g)).button_right
              = true ↔ later.glfwGetMouseButton GLFW_MOUSE_BUTTON_RIGHT = GLFW_PRESS) ∧
          (mouse_button later button act mods (mouse_move E window xpos ypos g)).cam = g.cam ∧
          (mouse_button later button act mods (mouse_move E window xpos ypos g)).calls
            = g.calls := by
  rw [mouse_move_idle E window xpos ypos g hl hm hr]
  refine ⟨rfl, rfl, rfl, rfl, rfl, fun later button act mods => ?_⟩
  refine ⟨rfl, rfl, ?_, ?_, ?_, rfl, rfl⟩ <;> simp [mouse_button]

/-- C8 amended at a concrete input: the stored cursor stays at (40, 50) when
the pointer hovers to (5, 7), and a press of the middle button with the
cursor at (5, 7) then stores (5, 7). -/
theorem hover_is_noop_witness :
    (demoHover.button_left = false ∧ demoHover.button_middle = false ∧
        demoHover.button_right = false) ∧
      (mouse_move (demoEngine (1 / 500)) demoWindow 5 7 demoHover).lastx = 40 ∧
      (mouse_move (demoEngine (1 / 500)) demoWindow 5 7 demoHover).lasty = 50 ∧
      (mouse_button demoPress GLFW_MOUSE_BUTTON_MIDDLE GLFW_PRESS 0
        (mouse_move (demoEngine (1 / 500)) demoWindow 5 7 demoHover)).lastx = 5 ∧
      (mouse_button demoPress GLFW_MOUSE_BUTTON_MIDDLE GLFW_PRESS 0
        (mouse_move (demoEngine (1 / 500)) demoWindow 5 7 demoHover)).lasty = 7 := by
  obtain ⟨-, hx, hy, -, -, hb⟩ :=
    hover_is_noop (demoEngine (1 / 500)) demoWindow 5 7 demoHover rfl rfl rfl
  obtain ⟨hbx, hby, -⟩ := hb demoPress GLFW_MOUSE_BUTTON_MIDDLE GLFW_PRESS 0
  exact ⟨⟨rfl, rfl, rfl⟩, hx, hy, hbx, hby⟩

/-- C5 as stated fails: in the 1200 by 900 window the sample creates, with
only the middle button latched, a scroll of `yoffset = 1` forwards the vertical
magnitude -1/20 while a drag with raw vertical delta `-20 * 1` forwards -1/45;
under the demo zoom law the camera ends at distance 3/2 in one case and 16/9
in the other. -/
theorem scroll_differs_from_drag_at_900 :
    demoMiddle.button_left = false ∧ demoMiddle.button_middle = true ∧
      demoMiddle.button_right = false ∧
      (scroll (demoEngine (1 / 500)) demoWindow 0 1 demoMiddle).calls =
        [Call.mjv_moveCamera mjtMouse.mjMOUSE_ZOOM 0 (-1 / 20)] ∧
      (mouse_move (demoEngine (1 / 500)) demoWindow 0 (-20 * 1) demoMiddle).calls =
        [Call.mjv_moveCamera mjtMouse.mjMOUSE_ZOOM 0 (-1 / 45)] ∧
      (scroll (demoEngine (1 / 500)) demoWindow 0 1 demoMiddle).calls ≠
        (mouse_move (demoEngine (1 / 500)) demoWindow 0 (-20 * 1) demoMiddle).calls ∧
      (scroll (demoEngine (1 / 500)) demoWindow 0 1 demoMiddle).cam.distance = 3 / 2 ∧
      (mouse_move (demoEngine (1 / 500)) demoWindow 0 (-20 * 1) demoMiddle).cam.distance
        = 16 / 9 := by
  have hs : (scroll (demoEngine (1 / 500)) demoWindow 0 1 demoMiddle).calls =
      [Call.mjv_moveCamera mjtMouse.mjMOUSE_ZOOM 0 (-1 / 20)] := by
    simp [scroll, demoMiddle, demoGlobals, mainInit]
    norm_num
  have hd : (mouse_move (demoEngine (1 / 500)) demoWindow 0 (-20 * 1) demoMiddle).calls =
      [Call.mjv_moveCamera mjtMouse.mjMOUSE_ZOOM 0 (-1 / 45)] := by
    simp [mouse_move, demoMiddle, demoGlobals, mainInit, demoWindow]
    norm_num
  refine ⟨rfl, rfl, rfl, hs, hd, ?_, ?_, ?_⟩
  · rw [hs, hd]
    simp
    norm_num
  · simp [scroll, demoMiddle, demoGlobals, mainInit, demoEngine, mjv_moveCamera, demoCam]
    norm_num
  · simp [mouse_move, demoMiddle, demoGlobals, mainInit, demoEngine, mjv_moveCamera, demoCam,
      demoWindow]
    norm_num

/-- C5 amended: with only the middle button latched and a nonzero window
height, a scroll of `yoffset` and a drag both forward the zoom action.  The
scroll forwards the vertical magnitude `-0.05 * yoffset` whatever the window
height is; the drag forwards its raw vertical delta divided by the window
height.  Whenever these two forwarded magnitudes are equal, a camera primitive
whose zoom does not look at the horizontal magnitude yields the same camera
state from both entry points. -/
theorem scroll_matches_drag_of_equal_magnitude (E : Engine X Q D Cam Scn)
    (window : GLFWwindow) (xoffset yoffset xpos ypos : ℚ) (g : Globals X Q D Cam Scn)
    (hl : g.button_left = false) (hm : g.button_middle = true) (hr : g.button_right = false)
    (_hh : window.glfwGetWindowSize.2 ≠ 0)
    (hz : ∀ m rx ry scn cam, E.mjv_moveCamera m mjtMouse.mjMOUSE_ZOOM rx ry scn cam =
      E.mjv_moveCamera m mjtMouse.mjMOUSE_ZOOM 0 ry scn cam) :
    (scroll E window xoffset yoffset g).calls =
        g.calls ++ [Call.mjv_moveCamera mjtMouse.mjMOUSE_ZOOM 0 (-0.05 * yoffset)] ∧
      (mouse_move E window xpos ypos g).calls =
        g.calls ++ [Call.mjv_moveCamera mjtMouse.mjMOUSE_ZOOM
          ((xpos - g.lastx) / (window.glfwGetWindowSize.2 : ℚ))
          ((ypos - g.lasty) / (window.glfwGetWindowSize.2 : ℚ))] ∧
      ((ypos - g.lasty) / (window.glfwGetWindowSize.2 : ℚ) = -0.05 * yoffset →
        (mouse_move E window xpos ypos g).cam = (scroll E window xoffset yoffset g).cam) := by
  refine ⟨rfl, ?_, ?_⟩
  · simp [mouse_move, hl, hm, hr]
  · intro hry
    simp only [mouse_move, scroll, hl, hm, hr]
    simp only [Bool.not_false, Bool.not_true, Bool.and_false, Bool.false_and, Bool.false_eq_true,
      if_false]
    rw [hry]
    exact hz _ _ _ _ _

/-- C5 amended at a concrete input: in the 900-high window a scroll of
`yoffset = 1` and a middle-button drag by 30 to the right and 45 up forward
the same vertical magnitude and leave the same camera. -/
theorem scroll_matches_drag_of_equal_magnitude_witness :
    (demoMiddle.button_left = false ∧ demoMiddle.button_middle = true ∧
        demoMiddle.button_right = false ∧ demoWindow.glfwGetWindowSize.2 ≠ 0 ∧
        ((-45 : ℚ) - demoMiddle.lasty) / (demoWindow.glfwGetWindowSize.2 : ℚ) = -0.05 * 1) ∧
      (mouse_move (demoEngine (1 / 500)) demoWindow 30 (-45) demoMiddle).cam =
        (scroll (demoEngine (1 / 500)) demoWindow 0 1 demoMiddle).cam := by
  have hry : ((-45 : ℚ) - demoMiddle.lasty) / (demoWindow.glfwGetWindowSize.2 : ℚ)
      = -0.05 * 1 := by
    simp [demoMiddle, demoGlobals, mainInit, demoWindow]
    norm_num
  have hh : demoWindow.glfwGetWindowSize.2 ≠ 0 := by
    simp [demoWindow]
  exact ⟨⟨rfl, rfl, rfl, hh, hry⟩,
    (scroll_matches_drag_of_equal_magnitude (demoEngine (1 / 500)) demoWindow 0 1 30 (-45)
      demoMiddle rfl rfl rfl hh (fun _ _ _ _ _ => rfl)).2.2 hry⟩

/-! ## Keyboard callback -/

/-- C6 as stated fails on the reset pass the specification describes: with
`mycontroller` installed, two actuators and two degrees of freedom, and an
initial snapshot with velocities `3, -4` and zero actuation, a backspace press
leaves the actuation vector at `-3/10, 2/5`, written by the control callback
during the consistency pass, and not at the snapshot value `0, 0`. -/
theorem reset_actuation_from_hook :
    demoMidRun.mjcb_control = some mycontroller ∧
      demoData.ctrl = [0, 0] ∧
      (keyboard (withReset (demoEngine (1 / 500)) (fun _ => demoData) (fun _ _ => ())) demoWindow
        GLFW_KEY_BACKSPACE 0 GLFW_PRESS 0 demoMidRun).d.ctrl = [-3 / 10, 2 / 5] ∧
      (keyboard (withReset (demoEngine (1 / 500)) (fun _ => demoData) (fun _ _ => ())) demoWindow
        GLFW_KEY_BACKSPACE 0 GLFW_PRESS 0 demoMidRun).d.ctrl ≠ demoData.ctrl := by
  have hc : (keyboard (withReset (demoEngine (1 / 500)) (fun _ => demoData) (fun _ _ => ()))
      demoWindow GLFW_KEY_BACKSPACE 0 GLFW_PRESS 0 demoMidRun).d.ctrl = [-3 / 10, 2 / 5] := by
    simp [keyboard, withReset, mj_forward, mj_resetData, demoMidRun, demoMiddle, demoGlobals,
      mainInit, mycontroller, demoModel, demoData, mju_scl, List.range, List.range.loop]
    norm_num
  refine ⟨rfl, rfl, hc, ?_⟩
  rw [hc]
  simp [demoData]

/-- C6 amended: the keyboard callback calls the engine reset exactly when the
event is a press of backspace.  After such an event the data is the initial
snapshot put through one consistency pass: the simulated time is 0, the
velocities and the remaining primary state are those of the snapshot, the
actuation vector is what the installed control callback computes from the
snapshot (the snapshot's own when none is installed), and the derived
quantities are recomputed; the model, camera, scene, button latches, `lastx`,
`lasty` and the installed control callback are as before.  Any other key
event leaves the whole program state as it was. -/
theorem keyboard_reset_frame (E : Engine X Q D Cam Scn) (initial : mjModel X → mjData Q D)
    (derive : mjModel X → mjData Q D → D) (window : GLFWwindow) (key scancode act mods : Int)
    (g : Globals X Q D Cam Scn) :
    ((keyboard (withReset E initial derive) window key scancode act mods g).calls =
        g.calls ++ [Call.mj_resetData, Call.mj_forward] ↔
      (act = GLFW_PRESS ∧ key = GLFW_KEY_BACKSPACE)) ∧
    ((act = GLFW_PRESS ∧ key = GLFW_KEY_BACKSPACE) →
      (keyboard (withReset E initial derive) window key scancode act mods g).d =
        mj_forward derive g.mjcb_control g.m { initial g.m with time := 0 } ∧
      (keyboard (withReset E initial derive) window key scancode act mods g).d.time = 0 ∧
      (keyboard (withReset E initial derive) window key scancode act mods g).d.qvel =
        (initial g.m).qvel ∧
      (keyboard (withReset E initial derive) window key scancode act mods g).d.state =
        (initial g.m).state ∧
      (∀ f, g.mjcb_control = some f →
        (keyboard (withReset E initial derive) window key scancode act mods g).d.ctrl =
          (f g.m { initial g.m with time := 0 }).ctrl) ∧
      (g.mjcb_control = none →
        (keyboard (withReset E initial derive) window key scancode act mods g).d.ctrl =
          (initial g.m).ctrl) ∧
      (keyboard (withReset E initial derive) window key scancode act mods g).m = g.m ∧
      (keyboard (withReset E initial derive) window key scancode act mods g).cam = g.cam ∧
      (keyboard (withReset E initial derive) window key scancode act mods g).scn = g.scn ∧
      (keyboard (withReset E initial derive) window key scancode act mods g).button_left =
        g.button_left ∧
      (keyboard (withReset E initial derive) window key scancode act mods g).button_middle =
        g.button_middle ∧
      (keyboard (withReset E initial derive) window key scancode act mods g).button_right =
        g.button_right ∧
      (keyboard (withReset E initial derive) window key scancode act mods g).lastx = g.lastx ∧
      (keyboard (withReset E initial derive) window key scancode act mods g).lasty = g.lasty ∧
      (keyboard (withReset E initial derive) window key scancode act mods g).mjcb_control =
        g.mjcb_control) ∧
    (¬ (act = GLFW_PRESS ∧ key = GLFW_KEY_BACKSPACE) →
      keyboard (withReset E initial derive) window key scancode act mods g = g) := by
  by_cases hc : act = GLFW_PRESS ∧ key = GLFW_KEY_BACKSPACE
  · have hk : keyboard (withReset E initial derive) window key scancode act mods g =
        { g with
          d := mj_forward derive g.mjcb_control g.m (mj_resetData initial g.m g.d)
          calls := g.calls ++ [Call.mj_resetData] ++ [Call.mj_forward] } := by
      simp [keyboard, hc, withReset]
    rw [hk]
    refine ⟨⟨fun _ => hc, fun _ => by simp⟩, fun _ => ?_, fun hn => absurd hc hn⟩
    refine ⟨rfl, ?_, ?_, ?_, ?_, ?_, rfl, rfl, rfl, rfl, rfl, rfl, rfl, rfl, rfl⟩
    · cases hh : g.mjcb_control <;> simp [mj_forward, mj_resetData]
    · cases hh : g.mjcb_control <;> simp [mj_forward, mj_resetData]
    · cases hh : g.mjcb_control <;> simp [mj_forward, mj_resetData]
    · intro f hf
      simp [mj_forward, mj_resetData, hf]
    · intro hn
      simp [mj_forward, mj_resetData, hn]
  · have hk : keyboard (withReset E initial derive) window key scancode act mods g = g := by
      simp only [keyboard, if_neg hc]
    rw [hk]
    refine ⟨⟨fun h => ?_, fun h => absurd h hc⟩, fun h => absurd h hc, fun _ => rfl⟩
    have hlen := congrArg List.length h
    simp at hlen

/-- C6 amended at a concrete input: backspace pressed mid-run with the middle
button latched and `mycontroller` installed; the clock returns to 0, the
velocities to the snapshot values `3, -4`, the actuation is what
`mycontroller` computes from the snapshot, and the latch and cursor are kept. -/
theorem keyboard_reset_frame_witness :
    (GLFW_PRESS = GLFW_PRESS ∧ GLFW_KEY_BACKSPACE = GLFW_KEY_BACKSPACE ∧
        demoMidRun.mjcb_control = some mycontroller) ∧
      (keyboard (withReset (demoEngine (1 / 500)) (fun _ => demoData) (fun _ _ => ())) demoWindow
        GLFW_KEY_BACKSPACE 0 GLFW_PRESS 0 demoMidRun).d.time = 0 ∧
      (keyboard (withReset (demoEngine (1 / 500)) (fun _ => demoData) (fun _ _ => ())) demoWindow
        GLFW_KEY_BACKSPACE 0 GLFW_PRESS 0 demoMidRun).d.qvel = [3, -4] ∧
      (keyboard (withReset (demoEngine (1 / 500)) (fun _ => demoData) (fun _ _ => ())) demoWindow
        GLFW_KEY_BACKSPACE 0 GLFW_PRESS 0 demoMidRun).d.ctrl =
          (mycontroller demoModel demoData).ctrl ∧
      (keyboard (withReset (demoEngine (1 / 500)) (fun _ => demoData) (fun _ _ => ())) demoWindow
        GLFW_KEY_BACKSPACE 0 GLFW_PRESS 0 demoMidRun).button_middle = true ∧
      (keyboard (withReset (demoEngine (1 / 500)) (fun _ => demoData) (fun _ _ => ())) demoWindow
        GLFW_KEY_BACKSPACE 0 GLFW_PRESS 0 demoMidRun).lastx = 40 := by
  have h := (keyboard_reset_frame (demoEngine (1 / 500)) (fun _ => demoData) (fun _ _ => ())
    demoWindow GLFW_KEY_BACKSPACE 0 GLFW_PRESS 0 demoMidRun).2.1 ⟨rfl, rfl⟩
  obtain ⟨-, ht, hv, -, hf, -, -, -, -, -, hb, -, hx, -, -⟩ := h
  exact ⟨⟨rfl, rfl, rfl⟩, ht, hv, hf mycontroller rfl, hb, hx⟩

/-! ## Control callback -/

/-- The engine helper does not change the length of the destination. -/
lemma mju_scl_length (res vec : List ℚ) (scl : ℚ) (n : Nat) :
    (mju_scl res vec scl n).length = res.length := by
  induction n with
  | zero => simp [mju_scl]
  | succ k ih =>
    unfold mju_scl at ih ⊢
    rw [List.range_succ, List.foldl_append]
    simp only [List.foldl_cons, List.foldl_nil, List.length_set]
    exact ih

/-- Entry `i` of the destination after the engine helper has run. -/
lemma mju_scl_getElem? (res vec : List ℚ) (scl : ℚ) (n i : Nat) :
    (mju_scl res vec scl n)[i]? =
      if i < n then (if i < res.length then some (vec.getD i 0 * scl) else none)
      else res[i]? := by
  induction n with
  | zero => simp [mju_scl]
  | succ k ih =>
    have hlen := mju_scl_length res vec scl k
    unfold mju_scl at ih hlen ⊢
    rw [List.range_succ, List.foldl_append]
    simp only [List.foldl_cons, List.foldl_nil]
    rw [List.getElem?_set, hlen, ih]
    by_cases hki : k = i
    · subst hki
      simp
    · by_cases hlt : i < k
      · have : i < k + 1 := by omega
        simp [hki, hlt, this]
      · have : ¬ i < k + 1 := by omega
        simp [hki, hlt, this]

/-- C7: on data whose `qvel` has `nv` entries and whose `ctrl` has `nu`
entries, the default control callback with `nu = nv` sets `ctrl[i]` to
`-0.1 * qvel[i]` for every `i < nv` and changes nothing else (time, `qvel`,
the rest of the state, and the length of `ctrl` are as before); with
`nu ≠ nv` it returns the data unchanged. -/
theorem mycontroller_damping (m : mjModel X) (d : mjData Q D)
    (hq : d.qvel.length = m.nv) (hc : d.ctrl.length = m.nu) :
    (m.nu = m.nv →
      (∀ i, i < m.nv → ∃ v, d.qvel[i]? = some v ∧ (mycontroller m d).ctrl[i]? = some (-0.1 * v)) ∧
      (mycontroller m d).ctrl.length = d.ctrl.length ∧
      (mycontroller m d).time = d.time ∧
      (mycontroller m d).qvel = d.qvel ∧
      (mycontroller m d).state = d.state ∧
      (mycontroller m d).derived = d.derived) ∧
    (m.nu ≠ m.nv → mycontroller m d = d) := by
  constructor
  · intro he
    have hm : mycontroller m d = { d with ctrl := mju_scl d.ctrl d.qvel (-0.1) m.nv } := by
      simp [mycontroller, he]
    rw [hm]
    refine ⟨fun i hi => ?_, mju_scl_length _ _ _ _, rfl, rfl, rfl, rfl⟩
    have hiq : i < d.qvel.length := by omega
    have hic : i < d.ctrl.length := by omega
    refine ⟨d.qvel[i], List.getElem?_eq_getElem hiq, ?_⟩
    show (mju_scl d.ctrl d.qvel (-0.1) m.nv)[i]? = _
    rw [mju_scl_getElem?, if_pos hi, if_pos hic, List.getD_eq_getElem _ _ hiq, mul_comm]
  · intro hne
    simp [mycontroller, hne]

/-- C7 at a concrete input: two actuators, two degrees of freedom, velocities
`3, -4`; the callback writes `-3/10, 2/5`. -/
theorem mycontroller_damping_witness :
    (demoData.qvel.length = demoModel.nv ∧ demoData.ctrl.length = demoModel.nu ∧
        demoModel.nu = demoModel.nv) ∧
      (mycontroller demoModel demoData).ctrl[0]? = some (-3 / 10 : ℚ) ∧
      (mycontroller demoModel demoData).ctrl[1]? = some (2 / 5 : ℚ) ∧
      (mycontroller demoModel demoData).ctrl.length = 2 := by
  have h := (mycontroller_damping demoModel demoData rfl rfl).1 rfl
  obtain ⟨v0, hv0, hc0⟩ := h.1 0 (by decide)
  obtain ⟨v1, hv1, hc1⟩ := h.1 1 (by decide)
  have e0 : v0 = 3 := by
    have : demoData.qvel[0]? = some (3 : ℚ) := rfl
    rw [this] at hv0
    exact (Option.some.inj hv0).symm
  have e1 : v1 = -4 := by
    have : demoData.qvel[1]? = some (-4 : ℚ) := rfl
    rw [this] at hv1
    exact (Option.some.inj hv1).symm
  subst e0 e1
  refine ⟨⟨rfl, rfl, rfl⟩, ?_, ?_, h.2.1⟩
  · rw [hc0]
    norm_num
  · rw [hc1]
    norm_num

/-! ## Zoom clamp -/

/-- The modelled zoom never leaves a distance below the minimum. -/
lemma zoom_distance_ge (zoomLaw : CameraRig → ℚ → ℚ) (minDistance : ℚ)
    (other : mjtMouse → ℚ → ℚ → CameraRig → CameraRig) (m : mjModel X) (rx ry : ℚ) (scn : Scn)
    (cam : CameraRig) :
    minDistance ≤
      (mjv_moveCamera zoomLaw minDistance other m mjtMouse.mjMOUSE_ZOOM rx ry scn cam).distance := by
  simp [mjv_moveCamera]

/-- A scroll event keeps the latches and leaves a positive distance. -/
lemma scroll_keeps_positive (E : Engine X Q D CameraRig Scn) (zoomLaw : CameraRig → ℚ → ℚ)
    (minDistance : ℚ) (other : mjtMouse → ℚ → ℚ → CameraRig → CameraRig) (hmin : 0 < minDistance)
    (window : GLFWwindow) (xoffset yoffset : ℚ) (g : Globals X Q D CameraRig Scn) :
    (scroll (withCamera E zoomLaw minDistance other) window xoffset yoffset g).button_left =
        g.button_left ∧
      (scroll (withCamera E zoomLaw minDistance other) window xoffset yoffset g).button_right =
        g.button_right ∧
      0 < (scroll (withCamera E zoomLaw minDistance other) window xoffset yoffset g).cam.distance :=
  ⟨rfl, rfl, lt_of_lt_of_le hmin (zoom_distance_ge zoomLaw minDistance other g.m 0 (-0.05 * yoffset) g.scn g.cam)⟩

/-- A move event without the left and right latches keeps the latches and a
positive distance. -/
lemma mouse_move_keeps_positive (E : Engine X Q D CameraRig Scn) (zoomLaw : CameraRig → ℚ → ℚ)
    (minDistance : ℚ) (other : mjtMouse → ℚ → ℚ → CameraRig → CameraRig) (hmin : 0 < minDistance)
    (window : GLFWwindow) (xpos ypos : ℚ) (g : Globals X Q D CameraRig Scn)
    (hl : g.button_left = false) (hr : g.button_right = false) (hpos : 0 < g.cam.distance) :
    (mouse_move (withCamera E zoomLaw minDistance other) window xpos ypos g).button_left = false ∧
      (mouse_move (withCamera E zoomLaw minDistance other) window xpos ypos g).button_right
        = false ∧
      0 < (mouse_move (withCamera E zoomLaw minDistance other) window xpos ypos g).cam.distance := by
  cases hm : g.button_middle
  · rw [mouse_move_idle _ window xpos ypos g hl hm hr]
    exact ⟨hl, hr, hpos⟩
  · have hmv : mouse_move (withCamera E zoomLaw minDistance other) window xpos ypos g =
        { g with
          lastx := xpos
          lasty := ypos
          cam := mjv_moveCamera zoomLaw minDistance other g.m mjtMouse.mjMOUSE_ZOOM
            ((xpos - g.lastx) / (window.glfwGetWindowSize.2 : ℚ))
            ((ypos - g.lasty) / (window.glfwGetWindowSize.2 : ℚ)) g.scn g.cam
          calls := g.calls ++ [Call.mjv_moveCamera mjtMouse.mjMOUSE_ZOOM
            ((xpos - g.lastx) / (window.glfwGetWindowSize.2 : ℚ))
            ((ypos - g.lasty) / (window.glfwGetWindowSize.2 : ℚ))] } := by
      simp [mouse_move, hl, hm, hr, withCamera]
    rw [hmv]
    exact ⟨hl, hr, lt_of_lt_of_le hmin (zoom_distance_ge zoomLaw minDistance other g.m
      ((xpos - g.lastx) / (window.glfwGetWindowSize.2 : ℚ))
      ((ypos - g.lasty) / (window.glfwGetWindowSize.2 : ℚ)) g.scn g.cam)⟩

/-- C9: with the camera primitive clamping the zoom at a positive minimum,
any finite sequence of scroll events (any offset) and move events (any
position, any window size) handled while the left and right buttons are not
latched, so that every drag is a middle-button zoom, leaves the camera
distance strictly positive when it starts positive; and a single scroll whose
unclamped result would be at or below the minimum leaves the distance exactly
at the minimum. -/
theorem zoom_keeps_distance_positive (E : Engine X Q D CameraRig Scn)
    (zoomLaw : CameraRig → ℚ → ℚ) (minDistance : ℚ)
    (other : mjtMouse → ℚ → ℚ → CameraRig → CameraRig) (hmin : 0 < minDistance)
    (ps : List Pending) (hps : ∀ p ∈ ps, p.event.isScrollOrMove = true)
    (g : Globals X Q D CameraRig Scn)
    (hl : g.button_left = false) (hr : g.button_right = false) (hpos : 0 < g.cam.distance) :
    0 < (dispatchAll (withCamera E zoomLaw minDistance other) ps g).cam.distance ∧
      ∀ (window : GLFWwindow) (xoffset yoffset : ℚ),
        zoomLaw g.cam (-0.05 * yoffset) ≤ minDistance →
        (scroll (withCamera E zoomLaw minDistance other) window xoffset yoffset g).cam.distance
          = minDistance := by
  constructor
  · induction ps generalizing g with
    | nil => exact hpos
    | cons p rest ih =>
      have hrest : ∀ q ∈ rest, q.event.isScrollOrMove = true :=
        fun q hq => hps q (List.mem_cons_of_mem _ hq)
      have hp : p.event.isScrollOrMove = true := hps p (List.mem_cons_self _ _)
      simp only [dispatchAll, List.foldl_cons]
      have hstep : (dispatch (withCamera E zoomLaw minDistance other) p g).button_left = false ∧
          (dispatch (withCamera E zoomLaw minDistance other) p g).button_right = false ∧
          0 < (dispatch (withCamera E zoomLaw minDistance other) p g).cam.distance := by
        rcases p with ⟨w, ev⟩
        cases ev with
        | key k sc a md => simp [Event.isScrollOrMove] at hp
        | mouseButton b a md => simp [Event.isScrollOrMove] at hp
        | cursorPos x y =>
          exact mouse_move_keeps_positive E zoomLaw minDistance other hmin w x y g hl hr hpos
        | scroll xo yo =>
          have h := scroll_keeps_positive E zoomLaw minDistance other hmin w xo yo g
          exact ⟨h.1.trans hl, h.2.1.trans hr, h.2.2⟩
      exact ih hrest _ hstep.1 hstep.2.1 hstep.2.2
  · intro window xoffset yoffset hle
    show max minDistance (zoomLaw g.cam (-0.05 * yoffset)) = minDistance
    exact max_eq_left hle

/-- C9 at a concrete input: from distance 2, a scroll of 1000 and a
middle-button drag of a million pixels in a one-pixel-high window leave the
distance at the minimum 1/100 of the demo engine, which is positive. -/
theorem zoom_keeps_distance_positive_witness :
    ((0 : ℚ) < 1 / 100 ∧ demoMiddle.button_left = false ∧ demoMiddle.button_right = false ∧
        0 < demoMiddle.cam.distance) ∧
      0 < (dispatchAll
        (withCamera (demoEngine (1 / 500)) (fun c r => c.distance + 10 * r) (1 / 100)
          (fun _ _ _ c => c))
        [{ window := demoWindow, event := Event.scroll 0 1000 },
         { window := { demoWindow with glfwGetWindowSize := (1, 1) },
           event := Event.cursorPos 0 (-1000000) }]
        demoMiddle).cam.distance :=
  ⟨⟨by norm_num, rfl, rfl, by simp [demoMiddle, demoGlobals, mainInit, demoCam]⟩,
    (zoom_keeps_distance_positive (demoEngine (1 / 500)) (fun c r => c.distance + 10 * r)
      (1 / 100) (fun _ _ _ c => c) (by norm_num)
      [{ window := demoWindow, event := Event.scroll 0 1000 },
       { window := { demoWindow with glfwGetWindowSize := (1, 1) },
         event := Event.cursorPos 0 (-1000000) }]
      (by simp [Event.isScrollOrMove])
      demoMiddle rfl rfl (by simp [demoMiddle, demoGlobals, mainInit, demoCam])).1⟩

/-! ## Frame scheduler -/

/-- Iterated steps touch only `d` and append one `mj_step` call each. -/
lemma stepOnce_iterate_frame (E : Engine X Q D Cam Scn) (n : Nat) (g : Globals X Q D Cam Scn) :
    ((stepOnce E)^[n] g).m = g.m ∧ ((stepOnce E)^[n] g).mjcb_control = g.mjcb_control ∧
      ((stepOnce E)^[n] g).calls = g.calls ++ List.replicate n Call.mj_step := by
  induction n generalizing g with
  | zero => simp
  | succ k ih =>
    rw [Function.iterate_succ_apply]
    obtain ⟨h1, h2, h3⟩ := ih (stepOnce E g)
    refine ⟨h1, h2, ?_⟩
    rw [h3]
    simp [stepOnce, List.replicate_succ]

/-- The clock after `n` steps of size `h`. -/
lemma stepOnce_iterate_time (E : Engine X Q D Cam Scn) (h : ℚ)
    (hook : Option (mjModel X → mjData Q D → mjData Q D)) (m : mjModel X)
    (hstep : ∀ d, (E.mj_step hook m d).time = d.time + h) (n : Nat)
    (g : Globals X Q D Cam Scn) (hk : g.mjcb_control = hook) (hm : g.m = m) :
    ((stepOnce E)^[n] g).d.time = g.d.time + n * h := by
  induction n generalizing g with
  | zero => simp
  | succ k ih =>
    rw [Function.iterate_succ_apply, ih (stepOnce E g) hk hm]
    have ht : (stepOnce E g).d.time = g.d.time + h := by
      show (E.mj_step g.mjcb_control g.m g.d).time = g.d.time + h
      rw [hk, hm]
      exact hstep g.d
    rw [ht]
    push_cast
    ring

/-- Lowering a rational by one lowers a positive natural ceiling by one. -/
lemma ceil_pred (a : ℚ) (k : Nat) (ha : ⌈a⌉₊ = k + 1) : ⌈a - 1⌉₊ = k := by
  by_cases h0 : 0 ≤ a - 1
  · have h1 := Nat.ceil_add_one h0
    rw [sub_add_cancel, ha] at h1
    omega
  · have hlt : a - 1 ≤ 0 := le_of_lt (not_le.mp h0)
    have hz : ⌈a - 1⌉₊ = 0 := Nat.ceil_eq_zero.mpr hlt
    have ha1 : a ≤ ((1 : Nat) : ℚ) := by
      push_cast
      linarith
    have hle : ⌈a⌉₊ ≤ 1 := Nat.ceil_le.mpr ha1
    omega

/-- The stepping loop, given at least as much fuel as steps remain, runs
exactly the remaining number of steps. -/
lemma stepLoop_run (E : Engine X Q D Cam Scn) (simstart h : ℚ) (hh : 0 < h)
    (hook : Option (mjModel X → mjData Q D → mjData Q D)) (m : mjModel X)
    (hstep : ∀ d, (E.mj_step hook m d).time = d.time + h) :
    ∀ (r : Nat) (g : Globals X Q D Cam Scn), g.mjcb_control = hook → g.m = m →
      ⌈(1 / 60 - (g.d.time - simstart)) / h⌉₊ = r →
      ∀ fuel, r ≤ fuel → stepLoop E simstart fuel g = some ((stepOnce E)^[r] g) := by
  intro r
  induction r with
  | zero =>
    intro g _ _ hr fuel _
    have hle : (1 / 60 - (g.d.time - simstart)) / h ≤ 0 := Nat.ceil_eq_zero.mp hr
    have hcond : ¬ (g.d.time - simstart < 1 / 60) := by
      have h0 := (div_le_iff₀ hh).mp hle
      rw [zero_mul] at h0
      linarith
    cases fuel <;> simp only [stepLoop, if_neg hcond] <;> rfl
  | succ k ih =>
    intro g hk hm hr fuel hf
    have hpos : 0 < (1 / 60 - (g.d.time - simstart)) / h := Nat.ceil_pos.mp (by omega)
    have hcond : g.d.time - simstart < 1 / 60 := by
      have h0 := (div_pos_iff_of_pos_right hh).mp hpos
      linarith
    obtain ⟨f, rfl⟩ : ∃ f, fuel = f + 1 := ⟨fuel - 1, by omega⟩
    rw [stepLoop, if_pos hcond, Function.iterate_succ_apply]
    have ht : (stepOnce E g).d.time = g.d.time + h := by
      show (E.mj_step g.mjcb_control g.m g.d).time = g.d.time + h
      rw [hk, hm]
      exact hstep g.d
    refine ih (stepOnce E g) hk hm ?_ f (by omega)
    rw [ht]
    have he : (1 / 60 - (g.d.time + h - simstart)) / h =
        (1 / 60 - (g.d.time - simstart)) / h - 1 := by
      field_simp
      ring
    rw [he]
    exact ceil_pred _ k hr

/-- One pass of the frame scheduler runs `⌈(1/60)/h⌉` steps. -/
lemma frameScheduler_run (E : Engine X Q D Cam Scn) (h : ℚ) (hh : 0 < h)
    (g : Globals X Q D Cam Scn)
    (hstep : ∀ d, (E.mj_step g.mjcb_control g.m d).time = d.time + h)
    (fuel : Nat) (hf : ⌈(1 / 60 : ℚ) / h⌉₊ ≤ fuel) :
    frameScheduler E fuel g = some ((stepOnce E)^[⌈(1 / 60 : ℚ) / h⌉₊] g) := by
  refine stepLoop_run E g.d.time h hh g.mjcb_control g.m hstep _ g rfl rfl ?_ fuel hf
  rw [sub_self, sub_zero]

/-- Simulated time elapsed over `⌈(1/60)/h⌉` steps of size `h`. -/
lemma elapsed_bounds (h : ℚ) (hh : 0 < h) :
    1 / 60 ≤ (⌈(1 / 60 : ℚ) / h⌉₊ : ℚ) * h ∧ (⌈(1 / 60 : ℚ) / h⌉₊ : ℚ) * h < 1 / 60 + h := by
  have ha : (0 : ℚ) ≤ 1 / 60 / h := by positivity
  have h1 : (1 / 60 : ℚ) / h ≤ (⌈(1 / 60 : ℚ) / h⌉₊ : ℚ) := Nat.le_ceil _
  have h2 : (⌈(1 / 60 : ℚ) / h⌉₊ : ℚ) < 1 / 60 / h + 1 := Nat.ceil_lt_add_one ha
  constructor
  · exact (div_le_iff₀ hh).mp h1
  · have h3 := mul_lt_mul_of_pos_right h2 hh
    have h4 : (1 / 60 / h + 1) * h = 1 / 60 + h := by
      field_simp
      ring
    rw [h4] at h3
    exact h3

/-- At least one step fits into a frame. -/
lemma steps_pos (h : ℚ) (hh : 0 < h) : 1 ≤ ⌈(1 / 60 : ℚ) / h⌉₊ := by
  have ha : (0 : ℚ) < 1 / 60 / h := by positivity
  exact Nat.ceil_pos.mpr ha

/-- C1: when every step advances the clock by a fixed `h > 0`, the stepping
loop of the main loop terminates (it returns for every sufficiently large
iteration bound), at least one step has been executed, and on exit the
simulated time has advanced by at least 1/60. -/
theorem frameScheduler_terminates (E : Engine X Q D Cam Scn) (h : ℚ) (hh : 0 < h)
    (g : Globals X Q D Cam Scn)
    (hstep : ∀ d, (E.mj_step g.mjcb_control g.m d).time = d.time + h) :
    ∃ bound : Nat, ∀ fuel, bound ≤ fuel →
      ∃ (g1 : Globals X Q D Cam Scn) (n : Nat),
        frameScheduler E fuel g = some g1 ∧
        1 ≤ n ∧ g1.calls = g.calls ++ List.replicate n Call.mj_step ∧
        ¬ (g1.d.time - g.d.time < 1 / 60) ∧ 1 / 60 ≤ g1.d.time - g.d.time := by
  refine ⟨⌈(1 / 60 : ℚ) / h⌉₊, fun fuel hf => ⟨_, ⌈(1 / 60 : ℚ) / h⌉₊,
    frameScheduler_run E h hh g hstep fuel hf, steps_pos h hh,
    (stepOnce_iterate_frame E _ g).2.2, ?_, ?_⟩⟩
  · rw [stepOnce_iterate_time E h g.mjcb_control g.m hstep _ g rfl rfl]
    have := (elapsed_bounds h hh).1
    linarith
  · rw [stepOnce_iterate_time E h g.mjcb_control g.m hstep _ g rfl rfl]
    have := (elapsed_bounds h hh).1
    linarith

/-- The demo engine advances the clock by `h` whatever the data. -/
lemma demo_step_time (h : ℚ) (d : mjData Unit Unit) :
    ((demoEngine h).mj_step demoGlobals.mjcb_control demoGlobals.m d).time = d.time + h := by
  simp [demoEngine, demoGlobals, mainInit, mycontroller, demoModel]

/-- C1 at a concrete input: the demo engine with step 1/500 from the globals
at entry to the main loop. -/
theorem frameScheduler_terminates_witness :
    ((0 : ℚ) < 1 / 500 ∧
        ∀ d, ((demoEngine (1 / 500)).mj_step demoGlobals.mjcb_control demoGlobals.m d).time =
          d.time + 1 / 500) ∧
      ∃ bound : Nat, ∀ fuel, bound ≤ fuel →
        ∃ (g1 : Globals Unit Unit Unit CameraRig Unit) (n : Nat),
          frameScheduler (demoEngine (1 / 500)) fuel demoGlobals = some g1 ∧
          1 ≤ n ∧ g1.calls = demoGlobals.calls ++ List.replicate n Call.mj_step ∧
          ¬ (g1.d.time - demoGlobals.d.time < 1 / 60) ∧
          1 / 60 ≤ g1.d.time - demoGlobals.d.time :=
  ⟨⟨by norm_num, demo_step_time (1 / 500)⟩,
    frameScheduler_terminates (demoEngine (1 / 500)) (1 / 500) (by norm_num) demoGlobals
      (demo_step_time (1 / 500))⟩

/-! ## Frame scheduler in double precision -/

end BasicModelSim
